import Mathlib

/-!
# NeuroChess Arena — verification of the AI move acquisition & orchestration engine

Shallow embedding of the core of the repository:

* `src/lib/llm/prompt.ts` — `extractMoveFromResponse` and its five layered
  extraction strategies (fenced JSON block, inline JSON object, bare
  `"move"` property, explicit lead-in phrases, last UCI token), including a
  faithful model of the JavaScript regexes involved (leftmost-first matching
  with greedy/lazy backtracking) and of `JSON.parse`;
* `src/lib/llm/index.ts` — `requestLLMMove`'s retry/backoff loop, modelled
  over an abstract per-attempt dispatch outcome (the `fetch` +
  `parseResponse` pair is external I/O, abstracted as `Except`);
* `src/store/gameStore.ts` — the zustand game store: `makeHumanMove`,
  `requestAIMove` (split at its single `await` point into a synchronous
  prefix and an atomic resume continuation, as JavaScript's run-to-completion
  scheduling guarantees), `toggleAutoPlay`, `stopAutoPlay`, `startNewGame`,
  `resetGame`, `addDebugLog`, `clearDebugLogs`.

The chess rules engine (`chess.js`, wrapped by `src/lib/chessEngine.ts`) is
an external collaborator; it is modelled as an abstract `ChessOracle`
record of the operations the store consumes (`isLegalMove`, `makeMove`,
`getGameStatus`, `getCurrentTurn`).  Object identity of the mutable
`Chess` instance — which the store uses for its stale-result discard —
is modelled by a generation counter `gameId` allocated freshly by
`startNewGame` / `resetGame`.

All text is modelled as `List Char`.
-/

set_option autoImplicit false

namespace NeuroChess

/-! ## JavaScript character classes and string helpers -/

/-- JS regex `\s` / `String.prototype.trim` whitespace class (the members
that can occur in provider responses; full class also has exotic Unicode
spaces). -/
def isSpaceJS (c : Char) : Bool :=
  c = ' ' || c = '\t' || c = '\n' || c = '\r' ||
  c = '\x0b' || c = '\x0c' || c = ' ' || c = '﻿'

/-- JS regex `\w` word class: `[A-Za-z0-9_]`. -/
def isWordChar (c : Char) : Bool :=
  ('a' ≤ c && c ≤ 'z') || ('A' ≤ c && c ≤ 'Z') || ('0' ≤ c && c ≤ '9') || c = '_'

/-- ASCII lower-casing, as `String.prototype.toLowerCase` acts on the
ASCII range (the only characters the move grammar involves). -/
def toLowerList (l : List Char) : List Char :=
  l.map Char.toLower

/-- `String.prototype.trim`: strip JS whitespace from both ends. -/
def trimJS (l : List Char) : List Char :=
  (((l.dropWhile isSpaceJS).reverse).dropWhile isSpaceJS).reverse

/-- Case-insensitive character comparison (JS `/i` flag, ASCII range). -/
def charEqCI (c d : Char) : Bool :=
  c.toLower = d.toLower

/-- Case-insensitive prefix test: does `pat` (case-insensitively) start
`l`?  Returns the rest of `l` after the prefix. -/
def dropPrefixCI : List Char → List Char → Option (List Char)
  | [], l => some l
  | _ :: _, [] => none
  | p :: ps, c :: cs => if charEqCI p c then dropPrefixCI ps cs else none

/-- Case-sensitive prefix test, returning the rest after the prefix. -/
def dropPrefixCS : List Char → List Char → Option (List Char)
  | [], l => some l
  | _ :: _, [] => none
  | p :: ps, c :: cs => if p = c then dropPrefixCS ps cs else none

/-- Rest of `l` after the first (leftmost) occurrence of `pat`;
`none` when `pat` does not occur. -/
def afterFirstSubstr (pat : List Char) : List Char → Option (List Char)
  | [] => if pat.isEmpty then some [] else none
  | c :: cs =>
    match dropPrefixCS pat (c :: cs) with
    | some rest => some rest
    | none => afterFirstSubstr pat cs

/-- The prefix of `l` strictly before the first occurrence of `pat`;
`none` when `pat` does not occur. -/
def takeUntilSubstr (pat : List Char) : List Char → Option (List Char)
  | [] => if pat.isEmpty then some [] else none
  | c :: cs =>
    match dropPrefixCS pat (c :: cs) with
    | some _ => some []
    | none => (takeUntilSubstr pat cs).map (c :: ·)

/-! ## The move-token grammar -/

/-- `[a-h]`, optionally case-insensitive (`/i`). -/
def isFileChar (ci : Bool) (c : Char) : Bool :=
  ('a' ≤ c && c ≤ 'h') || (ci && 'A' ≤ c && c ≤ 'H')

/-- `[1-8]`. -/
def isRankChar (c : Char) : Bool :=
  '1' ≤ c && c ≤ '8'

/-- `[qrbn]`, optionally case-insensitive (`/i`). -/
def isPromoChar (ci : Bool) (c : Char) : Bool :=
  c = 'q' || c = 'r' || c = 'b' || c = 'n' ||
  (ci && (c = 'Q' || c = 'R' || c = 'B' || c = 'N'))

/-- `isValidUciMove` from `prompt.ts`: anchored case-sensitive test
`/^[a-h][1-8][a-h][1-8][qrbn]?$/.test(move)`. -/
def isValidUciMove : List Char → Bool
  | [f1, r1, f2, r2] =>
    isFileChar false f1 && isRankChar r1 && isFileChar false f2 && isRankChar r2
  | [f1, r1, f2, r2, p] =>
    isFileChar false f1 && isRankChar r1 && isFileChar false f2 && isRankChar r2 &&
    isPromoChar false p
  | _ => false

/--
Match the sub-pattern `([a-h][1-8][a-h][1-8][qrbn]?)` (with `/i`) at the
head of `l`, where the regex continues with the single literal character
`next` (so the greedy `[qrbn]?` backtracks against it, exactly as the JS
engine does in `"..."`-delimited contexts).  Returns the captured token
and the rest of `l` after it (the rest still starts with `next`).
-/
def matchUciBefore (next : Char) (l : List Char) : Option (List Char × List Char) :=
  match l with
  | f1 :: r1 :: f2 :: r2 :: rest =>
    if isFileChar true f1 && isRankChar r1 && isFileChar true f2 && isRankChar r2 then
      match rest with
      | c :: rest2 =>
        -- greedy `[qrbn]?`: try to take a promotion letter first
        if isPromoChar true c then
          match rest2 with
          | d :: _ => if d = next then some ([f1, r1, f2, r2, c], rest2) else none
          | [] => none
        else if c = next then some ([f1, r1, f2, r2], rest)
        else none
      | [] => none
    else none
  | _ => none

/--
Match `([a-h][1-8][a-h][1-8][qrbn]?)` (with `/i`) at the head of `l` where
the regex continues with `\**` and then ends — so the greedy `[qrbn]?`
always succeeds in taking a promotion letter when one is present.
Returns the captured token.
-/
def matchUciGreedy (l : List Char) : Option (List Char) :=
  match l with
  | f1 :: r1 :: f2 :: r2 :: rest =>
    if isFileChar true f1 && isRankChar r1 && isFileChar true f2 && isRankChar r2 then
      match rest with
      | c :: _ => if isPromoChar true c then some [f1, r1, f2, r2, c] else some [f1, r1, f2, r2]
      | [] => some [f1, r1, f2, r2]
    else none
  | _ => none

/-! ## Strategy 5: `/\b[a-h][1-8][a-h][1-8][qrbn]?\b/gi`

`responseText.match(/.../gi)` scans left to right, collecting
non-overlapping matches; each match must sit between word boundaries.
The scanner below carries the previous character (`prev`) to decide `\b`
at the match start, and resumes after the end of each match. -/

/-- Word-boundary test between an optional previous character and a
word character that follows (the token always starts/ends with `\w`). -/
def boundaryBefore (prev : Option Char) : Bool :=
  match prev with
  | none => true
  | some p => !isWordChar p

/-- Try to match the strategy-5 token at the head of `l` (start boundary
already established by the caller): `[a-h][1-8][a-h][1-8]` then greedy
`[qrbn]?` backtracking against the final `\b`. Returns token and rest. -/
def matchUciWordBounded (l : List Char) : Option (List Char × List Char) :=
  match l with
  | f1 :: r1 :: f2 :: r2 :: rest =>
    if isFileChar true f1 && isRankChar r1 && isFileChar true f2 && isRankChar r2 then
      match rest with
      | c :: rest2 =>
        if isPromoChar true c then
          -- greedy: take the promotion letter if a boundary follows it
          match rest2 with
          | d :: _ =>
            if !isWordChar d then some ([f1, r1, f2, r2, c], rest2)
            else none  -- 4-char fallback needs `\b` before `c`, but `c` is a word char
          | [] => some ([f1, r1, f2, r2, c], rest2)
        else if !isWordChar c then some ([f1, r1, f2, r2], rest)
        else none
      | [] => some ([f1, r1, f2, r2], [])
    else none
  | _ => none

/-- All matches of `/\b[a-h][1-8][a-h][1-8][qrbn]?\b/gi` in `l`, in text
order (the `g`-flag scan).  `fuel` is a recursion bound; every step
consumes at least one character, so `l.length` fuel is always enough. -/
def uciScanGo (fuel : Nat) (prev : Option Char) (l : List Char) : List (List Char) :=
  match fuel, l with
  | _, [] => []
  | 0, _ => []
  | fuel + 1, c :: cs =>
    match (if boundaryBefore prev then matchUciWordBounded (c :: cs) else none) with
    | some (tok, rest) => tok :: uciScanGo fuel (some (tok.getLastD 'x')) rest
    | none => uciScanGo fuel (some c) cs

/-- All matches of the strategy-5 global regex in `text`, in text order. -/
def uciScan (text : List Char) : List (List Char) :=
  uciScanGo text.length none text

/-! ## A model of `JSON.parse`

Strategies 1 and 2 of `extractMoveFromResponse` run `JSON.parse` on a
regex-selected slice of the response.  The model parses strict JSON.
Numeric literals are kept as their lexeme (the extractor never uses a
numeric value except for truthiness, which is decided from the lexeme). -/

inductive Json where
  | null
  | bool (b : Bool)
  | num (raw : List Char)
  | str (s : List Char)
  | arr (elems : List Json)
  | obj (fields : List (List Char × Json))

/-- JSON insignificant whitespace (RFC 8259): space, tab, LF, CR. -/
def isJsonWs (c : Char) : Bool :=
  c = ' ' || c = '\t' || c = '\n' || c = '\r'

def isHexDigit (c : Char) : Bool :=
  ('0' ≤ c && c ≤ '9') || ('a' ≤ c && c ≤ 'f') || ('A' ≤ c && c ≤ 'F')

def hexVal (c : Char) : Nat :=
  if '0' ≤ c && c ≤ '9' then c.toNat - '0'.toNat
  else if 'a' ≤ c && c ≤ 'f' then c.toNat - 'a'.toNat + 10
  else c.toNat - 'A'.toNat + 10

def isDigit (c : Char) : Bool :=
  '0' ≤ c && c ≤ '9'

/-- Parse the body of a JSON string literal (after the opening quote),
returning the decoded characters and the rest after the closing quote. -/
def parseJsonString : List Char → Option (List Char × List Char)
  | [] => none
  | '"' :: rest => some ([], rest)
  | '\\' :: '"' :: rest2 => (parseJsonString rest2).map (fun (s, r) => ('"' :: s, r))
  | '\\' :: '\\' :: rest2 => (parseJsonString rest2).map (fun (s, r) => ('\\' :: s, r))
  | '\\' :: '/' :: rest2 => (parseJsonString rest2).map (fun (s, r) => ('/' :: s, r))
  | '\\' :: 'b' :: rest2 => (parseJsonString rest2).map (fun (s, r) => ('\x08' :: s, r))
  | '\\' :: 'f' :: rest2 => (parseJsonString rest2).map (fun (s, r) => ('\x0c' :: s, r))
  | '\\' :: 'n' :: rest2 => (parseJsonString rest2).map (fun (s, r) => ('\n' :: s, r))
  | '\\' :: 'r' :: rest2 => (parseJsonString rest2).map (fun (s, r) => ('\r' :: s, r))
  | '\\' :: 't' :: rest2 => (parseJsonString rest2).map (fun (s, r) => ('\t' :: s, r))
  | '\\' :: 'u' :: h1 :: h2 :: h3 :: h4 :: rest2 =>
    if isHexDigit h1 && isHexDigit h2 && isHexDigit h3 && isHexDigit h4 then
      let code := ((hexVal h1 * 16 + hexVal h2) * 16 + hexVal h3) * 16 + hexVal h4
      (parseJsonString rest2).map (fun (s, r) => (Char.ofNat code :: s, r))
    else none
  | '\\' :: _ => none
  | c :: rest =>
    if c.toNat < 32 then none  -- raw control characters are rejected
    else (parseJsonString rest).map (fun (s, r) => (c :: s, r))

/-- Parse a JSON number lexeme: `-?(0|[1-9][0-9]*)(\.[0-9]+)?([eE][+-]?[0-9]+)?`.
Returns the lexeme and the rest. -/
def parseJsonNumber (l : List Char) : Option (List Char × List Char) :=
  let (sign, l1) := match l with
    | '-' :: rest => (['-'], rest)
    | _ => (([] : List Char), l)
  match l1 with
  | '0' :: rest => parseFracExp (sign ++ ['0']) rest
  | c :: _ =>
    if isDigit c && c ≠ '0' then
      let ds := l1.takeWhile isDigit
      parseFracExp (sign ++ ds) (l1.dropWhile isDigit)
    else none
  | [] => none
where
  parseFracExp (intPart : List Char) (l : List Char) : Option (List Char × List Char) :=
    let (fracPart, l2) := match l with
      | '.' :: rest =>
        if (rest.takeWhile isDigit).isEmpty then (none, l)
        else (some ('.' :: rest.takeWhile isDigit), rest.dropWhile isDigit)
      | _ => (none, l)
    match fracPart, l2 with
    | none, '.' :: _ => none  -- a dot must be followed by digits
    | _, _ =>
      let (expPart, l3) := match l2 with
        | e :: rest =>
          if e = 'e' || e = 'E' then
            let (sgn, rest2) := match rest with
              | '+' :: r => (['+'], r)
              | '-' :: r => (['-'], r)
              | _ => (([] : List Char), rest)
            if (rest2.takeWhile isDigit).isEmpty then (none, l2)
            else (some (e :: (sgn ++ rest2.takeWhile isDigit)), rest2.dropWhile isDigit)
          else (none, l2)
        | [] => (none, l2)
      match expPart, l3 with
      | none, e :: _ =>
        if e = 'e' || e = 'E' then none  -- an exponent marker must be well-formed
        else some (intPart ++ fracPart.getD [], l3)
      | _, _ => some (intPart ++ fracPart.getD [] ++ expPart.getD [], l3)

/-- Parse a JSON value (and, mutually, object members and array elements).
`fuel` bounds recursion depth; the top-level entry point supplies ample
fuel, so on every input that `JSON.parse` accepts the result agrees. -/
def parseJsonValue (fuel : Nat) (l : List Char) : Option (Json × List Char) :=
  match fuel with
  | 0 => none
  | fuel + 1 =>
    match l with
    | '{' :: rest =>
      let rest := rest.dropWhile isJsonWs
      match rest with
      | '}' :: rest2 => some (.obj [], rest2)
      | _ => (parseJsonMembers fuel rest).map (fun (ms, r) => (.obj ms, r))
    | '[' :: rest =>
      let rest := rest.dropWhile isJsonWs
      match rest with
      | ']' :: rest2 => some (.arr [], rest2)
      | _ => (parseJsonElements fuel rest).map (fun (es, r) => (.arr es, r))
    | '"' :: rest => (parseJsonString rest).map (fun (s, r) => (.str s, r))
    | 't' :: 'r' :: 'u' :: 'e' :: rest => some (.bool true, rest)
    | 'f' :: 'a' :: 'l' :: 's' :: 'e' :: rest => some (.bool false, rest)
    | 'n' :: 'u' :: 'l' :: 'l' :: rest => some (.null, rest)
    | _ => (parseJsonNumber l).map (fun (raw, r) => (.num raw, r))
where
  /-- `string ws : element (, ...)* }`, cursor already past leading ws. -/
  parseJsonMembers (fuel : Nat) (l : List Char) :
      Option (List (List Char × Json) × List Char) :=
    match fuel with
    | 0 => none
    | fuel + 1 =>
      match l with
      | '"' :: rest =>
        match parseJsonString rest with
        | none => none
        | some (key, rest2) =>
          match rest2.dropWhile isJsonWs with
          | ':' :: rest3 =>
            match parseJsonValue fuel (rest3.dropWhile isJsonWs) with
            | none => none
            | some (v, rest4) =>
              match rest4.dropWhile isJsonWs with
              | ',' :: rest5 =>
                (parseJsonMembers fuel (rest5.dropWhile isJsonWs)).map
                  (fun (ms, r) => ((key, v) :: ms, r))
              | '}' :: rest5 => some ([(key, v)], rest5)
              | _ => none
          | _ => none
      | _ => none
  /-- `element (, element)* ]`, cursor already past leading ws. -/
  parseJsonElements (fuel : Nat) (l : List Char) : Option (List Json × List Char) :=
    match fuel with
    | 0 => none
    | fuel + 1 =>
      match parseJsonValue fuel l with
      | none => none
      | some (v, rest) =>
        match rest.dropWhile isJsonWs with
        | ',' :: rest2 =>
          (parseJsonElements fuel (rest2.dropWhile isJsonWs)).map
            (fun (es, r) => (v :: es, r))
        | ']' :: rest2 => some ([v], rest2)
        | _ => none

/-- `JSON.parse`: whole-input parse, allowing surrounding whitespace and
rejecting trailing garbage; `none` models a thrown `SyntaxError`. -/
def jsonParse (l : List Char) : Option Json :=
  match parseJsonValue (4 * l.length + 4) (l.dropWhile isJsonWs) with
  | some (v, rest) => if (rest.dropWhile isJsonWs).isEmpty then some v else none
  | none => none

/-- Property access `obj[key]` on a `JSON.parse` result: only objects have
fields; with duplicate keys `JSON.parse` keeps the last occurrence. -/
def jsonGetField (j : Json) (key : List Char) : Option Json :=
  match j with
  | .obj fields => lookupLast fields
  | _ => none
where
  lookupLast : List (List Char × Json) → Option Json
    | [] => none
    | (k, v) :: rest =>
      match lookupLast rest with
      | some r => some r
      | none => if k = key then some v else none

/-- Does the numeric lexeme denote zero (all mantissa digits `0`)? -/
def jsonNumIsZero (raw : List Char) : Bool :=
  let noSign := match raw with
    | '-' :: rest => rest
    | _ => raw
  (noSign.takeWhile (fun c => c ≠ 'e' && c ≠ 'E')).all (fun c => c = '0' || c = '.')

/-- JavaScript truthiness of a `JSON.parse` value. -/
def jsTruthy : Json → Bool
  | .null => false
  | .bool b => b
  | .num raw => !jsonNumIsZero raw
  | .str s => !s.isEmpty
  | .arr _ => true
  | .obj _ => true

/-- The extractor's `parsed.explanation || parsed.thoughts || undefined`
chain: the first truthy of the two fields, else nothing. -/
def jsonOrChain (j : Json) : Option Json :=
  let fallback :=
    match jsonGetField j ("thoughts".data) with
    | some v => if jsTruthy v then some v else none
    | none => none
  match jsonGetField j ("explanation".data) with
  | some v => if jsTruthy v then some v else fallback
  | none => fallback

/-! ## `extractMoveFromResponse` (src/lib/llm/prompt.ts)

The extractor's result type: `{ move: string; thoughts?: string }`
(`thoughts` holds the JSON value of `explanation`/`thoughts` when one is
truthy — the code assigns it unconverted). -/

structure ExtractedMove where
  move : List Char
  thoughts : Option Json

/--
Strategy 1 — `responseText.match(/```json\s*\n?([\s\S]*?)\n?```/)`,
then `JSON.parse` on the capture and the
`parsed.move && typeof parsed.move === 'string'` / `isValidUciMove` checks.

Regex semantics (leftmost match, greedy `\s*`, lazy `([\s\S]*?)` against
`\n?` + closing backticks): the match anchors at the first occurrence of
"```json"; `\s*\n?` then consumes the maximal whitespace run (whitespace
never contains a backtick, so greedy consumption never has to backtrack);
the lazy capture ends at the first subsequent "```", minus one directly
preceding newline (consumed by the second `\n?`).
-/
def jsonBlockStrategy (text : List Char) : Option ExtractedMove :=
  match afterFirstSubstr ("```json".data) text with
  | none => none
  | some rest0 =>
    let rest1 := rest0.dropWhile isSpaceJS
    match takeUntilSubstr ("```".data) rest1 with
    | none => none  -- no closing fence anywhere: the whole regex fails
    | some content0 =>
      let content := if content0.getLast? = some '\n' then content0.dropLast else content0
      match jsonParse content with
      | none => none  -- SyntaxError caught: fall through to later strategies
      | some j =>
        match jsonGetField j ("move".data) with
        | some (.str s) =>
          if s.isEmpty then none  -- `parsed.move` is falsy
          else
            let move := trimJS (toLowerList s)
            if isValidUciMove move then some ⟨move, jsonOrChain j⟩ else none
        | _ => none  -- missing or non-string `move` field

/-! ### Strategy 2 — `/\{[^{}]*"move"\s*:\s*"([a-h][1-8][a-h][1-8][qrbn]?)"[^{}]*\}/i`

Leftmost-first with backtracking: the engine tries each start position in
order; a start must be `{`; the greedy `[^{}]*` prefers the *longest*
stretch before `"move"` that lets the remainder match (so the last
eligible `"move"` within the brace-free run wins); the trailing greedy
`[^{}]*\}` succeeds exactly when the first brace after the closing quote
is `}`. -/

/-- After `"move"` (case-insensitively) has been consumed: match
`\s*:\s*"` + token + `"` + `[^{}]*\}`, returning the captured token and
the rest of the input after the whole match. -/
def jsonObjectTail (l : List Char) : Option (List Char × List Char) :=
  match l.dropWhile isSpaceJS with
  | ':' :: rest =>
    match rest.dropWhile isSpaceJS with
    | '"' :: rest2 =>
      match matchUciBefore '"' rest2 with
      | some (tok, rest3) =>
        match rest3 with
        | '"' :: rest4 =>
          -- `[^{}]*` then `}`: first brace after must be a closing one
          match rest4.dropWhile (fun c => c ≠ '{' && c ≠ '}') with
          | '}' :: rest5 => some (tok, rest5)
          | _ => none
        | _ => none
      | none => none
    | _ => none
  | _ => none

/-- All suffixes of the maximal brace-free prefix of `l` (the candidate
positions the greedy first `[^{}]*` can leave for `"move"`), in scan
order (shortest consumed prefix first). -/
def braceFreeSuffixes : List Char → List (List Char)
  | [] => [[]]
  | c :: cs =>
    if c = '{' || c = '}' then [c :: cs]
    else (c :: cs) :: braceFreeSuffixes cs

/-- Try the strategy-2 pattern at a start position whose head is `{`
(`afterBrace` is the input after that brace).  Greedy `[^{}]*`: test the
candidate `"move"` positions from the longest consumed prefix down.
Returns (capture, number of characters matched after the brace). -/
def jsonObjectAt (afterBrace : List Char) : Option (List Char × Nat) :=
  go ((braceFreeSuffixes afterBrace).reverse)
where
  go : List (List Char) → Option (List Char × Nat)
    | [] => none
    | suffix :: more =>
      match dropPrefixCI ("\"move\"".data) suffix with
      | some afterKey =>
        match jsonObjectTail afterKey with
        | some (tok, rest) => some (tok, afterBrace.length - rest.length)
        | none => go more
      | none => go more

/-- The matched slice and capture of the strategy-2 regex: scan start
positions left to right. Returns `(match0, capture)` — the whole matched
text (for `JSON.parse`) and the captured token. -/
def jsonObjectSearch : List Char → Option (List Char × List Char)
  | [] => none
  | c :: cs =>
    (if c = '{' then
      match jsonObjectAt cs with
      | some (tok, used) => some ('{' :: cs.take used, tok)
      | none => none
     else none).orElse
    (fun _ => jsonObjectSearch cs)

/-- Strategy 2 complete: regex search, then the `try { JSON.parse(...) }`
block.  A parse whose `.move` is a valid token returns it (with the
`explanation || thoughts` chain); a parse whose trimmed lower-cased
`.move` fails `isValidUciMove` falls through to strategy 3; a failed
parse — or a `TypeError` from `parsed.move.toLowerCase()` when `move` is
missing or not a string — is caught and returns the raw regex capture,
lower-cased. -/
def jsonObjectStrategy (text : List Char) : Option ExtractedMove :=
  match jsonObjectSearch text with
  | none => none
  | some (match0, cap) =>
    match jsonParse match0 with
    | some j =>
      match jsonGetField j ("move".data) with
      | some (.str s) =>
        let move := trimJS (toLowerList s)
        if isValidUciMove move then some ⟨move, jsonOrChain j⟩
        else none  -- falls out of the `if`, on to strategy 3
      | _ => some ⟨toLowerList cap, none⟩  -- TypeError caught: regex capture
    | none => some ⟨toLowerList cap, none⟩  -- SyntaxError caught: regex capture

/-! ### Strategy 3 — `/"move"\s*:\s*"([a-h][1-8][a-h][1-8][qrbn]?)"/i` -/

/-- Match the strategy-3 pattern at the head of `l`. -/
def movePropertyAt (l : List Char) : Option (List Char) :=
  match dropPrefixCI ("\"move\"".data) l with
  | none => none
  | some afterKey =>
    match afterKey.dropWhile isSpaceJS with
    | ':' :: rest =>
      match rest.dropWhile isSpaceJS with
      | '"' :: rest2 =>
        match matchUciBefore '"' rest2 with
        | some (tok, _) => some tok
        | none => none
      | _ => none
    | _ => none

/-- Strategy 3: leftmost match of the bare `"move": "…"` pattern; on a
match the capture is returned lower-cased. -/
def movePropertyStrategy : List Char → Option ExtractedMove
  | [] => none
  | c :: cs =>
    match movePropertyAt (c :: cs) with
    | some tok => some ⟨toLowerList tok, none⟩
    | none => movePropertyStrategy cs

/-! ### Strategy 4 — the two explicit lead-in phrase regexes (both `/i`)

```
/(?:my (?:final )?move is|i (?:will )?play|best move(?:\s+is)?|i choose|final move:?|move:)\s*[:\s]*\**([a-h][1-8][a-h][1-8][qrbn]?)\**/i
/(?:therefore|thus|so),?\s+(?:i (?:will )?play|my move is)\s*[:\s]*\**([a-h][1-8][a-h][1-8][qrbn]?)\**/i
```

Alternatives and optional groups are tried in regex order (greedy
optionals first); when one alternative's continuation fails the engine
backtracks to the next, and only then advances the start position.
`\s*[:\s]*` jointly consume the maximal run over whitespace-or-colon
(whitespace is a subset of the second class, and the following `\**` and
token head admit neither class, so greedy consumption is exact); likewise
`\**` consumes the maximal star run. -/

/-- The continuation `\s*[:\s]*\**(token)\**` shared by both phrase
regexes; returns the captured token. -/
def sepStarsToken (l : List Char) : Option (List Char) :=
  let l1 := l.dropWhile (fun c => isSpaceJS c || c = ':')
  let l2 := l1.dropWhile (fun c => c = '*')
  matchUciGreedy l2

/-- Helper: a candidate list from an optional prefix step. -/
def optCand (p : Option (List Char)) : List (List Char) :=
  match p with
  | some r => [r]
  | none => []

/-- The remainders the pattern-1 leading alternation can leave at a given
start position, in the engine's backtracking order. -/
def phrase1Candidates (l : List Char) : List (List Char) :=
  (match dropPrefixCI ("my ".data) l with
   | some r =>
     optCand ((dropPrefixCI ("final ".data) r).bind (dropPrefixCI ("move is".data))) ++
     optCand (dropPrefixCI ("move is".data) r)
   | none => []) ++
  (match dropPrefixCI ("i ".data) l with
   | some r =>
     optCand ((dropPrefixCI ("will ".data) r).bind (dropPrefixCI ("play".data))) ++
     optCand (dropPrefixCI ("play".data) r)
   | none => []) ++
  (match dropPrefixCI ("best move".data) l with
   | some r =>
     -- `(?:\s+is)?`: the inner alternative begins with a non-space
     -- letter, so only the maximal `\s+` run can be followed by `is`
     (let w := r.takeWhile isSpaceJS
      if w.isEmpty then [] else optCand (dropPrefixCI ("is".data) (r.drop w.length))) ++
     [r]
   | none => []) ++
  optCand (dropPrefixCI ("i choose".data) l) ++
  (match dropPrefixCI ("final move".data) l with
   | some r => (match r with | ':' :: r2 => [r2] | _ => []) ++ [r]
   | none => []) ++
  optCand (dropPrefixCI ("move:".data) l)

/-- The remainders the pattern-2 prefix (`(?:therefore|thus|so),?\s+`
then the inner alternation) can leave, in backtracking order. -/
def phrase2Candidates (l : List Char) : List (List Char) :=
  (headCands.map afterComma).flatten.map afterWsInner |>.flatten
where
  headCands : List (List Char) :=
    optCand (dropPrefixCI ("therefore".data) l) ++
    optCand (dropPrefixCI ("thus".data) l) ++
    optCand (dropPrefixCI ("so".data) l)
  afterComma (r : List Char) : List (List Char) :=
    (match r with | ',' :: r2 => [r2] | _ => []) ++ [r]
  afterWsInner (r : List Char) : List (List Char) :=
    -- `\s+` then `(?:i (?:will )?play|my move is)`: the inner alternatives
    -- begin with non-space letters, so only the maximal run qualifies
    let w := r.takeWhile isSpaceJS
    if w.isEmpty then []
    else
      let r2 := r.drop w.length
      optCand ((dropPrefixCI ("i ".data) r2).bind (fun q =>
        ((dropPrefixCI ("will ".data) q).bind (dropPrefixCI ("play".data))).orElse
          (fun _ => dropPrefixCI ("play".data) q))) ++
      optCand (dropPrefixCI ("my move is".data) r2)

/-- Try each candidate remainder's continuation in order. -/
def firstTokenOf : List (List Char) → Option (List Char)
  | [] => none
  | c :: cs => (sepStarsToken c).orElse (fun _ => firstTokenOf cs)

/-- Leftmost match of phrase pattern 1. -/
def phrase1Search : List Char → Option (List Char)
  | [] => firstTokenOf (phrase1Candidates [])
  | c :: cs =>
    (firstTokenOf (phrase1Candidates (c :: cs))).orElse (fun _ => phrase1Search cs)

/-- Leftmost match of phrase pattern 2. -/
def phrase2Search : List Char → Option (List Char)
  | [] => firstTokenOf (phrase2Candidates [])
  | c :: cs =>
    (firstTokenOf (phrase2Candidates (c :: cs))).orElse (fun _ => phrase2Search cs)

/-- Strategy 4: the `for (const pattern of explicitPhrases)` loop —
pattern 1 searched over the whole text before pattern 2; on a match the
capture is returned lower-cased. -/
def explicitPhraseStrategy (text : List Char) : Option ExtractedMove :=
  match phrase1Search text with
  | some tok => some ⟨toLowerList tok, none⟩
  | none =>
    match phrase2Search text with
    | some tok => some ⟨toLowerList tok, none⟩
    | none => none

/-- Strategy 5 as the extractor returns it: the *last* global-scan match,
lower-cased, with no thoughts. -/
def lastUciStrategy (text : List Char) : Option ExtractedMove :=
  (uciScan text).getLast?.map (fun tok => ⟨toLowerList tok, none⟩)

/-- `extractMoveFromResponse` (prompt.ts): the five strategies in strict
priority order, each `return` short-circuiting the rest. -/
def extractMoveFromResponse (text : List Char) : Option ExtractedMove :=
  match jsonBlockStrategy text with
  | some r => some r
  | none =>
    match jsonObjectStrategy text with
    | some r => some r
    | none =>
      match movePropertyStrategy text with
      | some r => some r
      | none =>
        match explicitPhraseStrategy text with
        | some r => some r
        | none => lastUciStrategy text

/-! ## `requestLLMMove`'s retry loop (src/lib/llm/index.ts)

The loop `for (let attempt = 1; attempt <= config.maxRetries; attempt++)`
dispatches one provider request per attempt.  A dispatch is `fetch` + the
HTTP-status check + `provider.parseResponse` — external I/O — modelled as
an attempt-indexed outcome `dispatch : Nat → Except String LLMResponse`
(`.error` = the thrown `Error`'s message, from any of the three sources).
On failure the loop records `lastError` and, unless the attempt was the
last, waits `Math.pow(2, attempt) * 500` ms before the next one; after
the loop it throws `lastError`.  The debug callback is purely
observational and is not modelled.  The model returns the full trace:
how many times the provider was invoked, the backoff waits performed (in
ms, in order), and the single final outcome — the loop body itself never
propagates an error before its last attempt. -/

structure LLMResponse where
  move : String
  thoughts : Option String := none
  rawResponse : Option String := none

structure LLMRunResult where
  calls : Nat
  waits : List Nat
  result : Except String LLMResponse

/-- One iteration of the retry loop at `attempt`, with `remaining` loop
iterations available (`remaining = maxRetries - attempt + 1` at every
call) and the error recorded by the previous attempts. -/
def requestLLMMoveGo (dispatch : Nat → Except String LLMResponse)
    (maxRetries : Nat) (attempt : Nat) (remaining : Nat) (lastError : Option String) :
    LLMRunResult :=
  match remaining with
  | 0 => ⟨0, [], .error (lastError.getD "Failed to get move from LLM")⟩
  | remaining + 1 =>
    match dispatch attempt with
    | .ok resp => ⟨1, [], .ok resp⟩
    | .error e =>
      if attempt = maxRetries then ⟨1, [], .error e⟩  -- `break`, then `throw lastError`
      else
        let rest := requestLLMMoveGo dispatch maxRetries (attempt + 1) remaining (some e)
        ⟨rest.calls + 1, (2 ^ attempt * 500) :: rest.waits, rest.result⟩

/-- The whole retry loop of `requestLLMMove`. -/
def requestLLMMoveRun (dispatch : Nat → Except String LLMResponse) (maxRetries : Nat) :
    LLMRunResult :=
  requestLLMMoveGo dispatch maxRetries 1 maxRetries none

/-! ## The game store (src/store/gameStore.ts)

State shape of the zustand store (persistence middleware and board/UI
configuration fields that no modelled operation reads are omitted).  The
mutable `chess.js` instance `game` is modelled by a pair: `gameId`, the
object's reference identity (`createGame()` in `startNewGame`/`resetGame`
allocates a fresh one, drawn from the `nextGameId` counter), and `pos`,
the position the object currently holds, interpreted by an abstract
`ChessOracle` (the rules engine is an external collaborator). -/

inductive PlayerColor where
  | white
  | black
deriving DecidableEq

inductive PlayerType where
  | human
  | ai
deriving DecidableEq

/-- `GameStatus` as the store assigns it: the `'idle' | 'playing' |
'white_wins' | 'black_wins' | 'draw'` values plus the `'ai_error'` value
assigned by `requestAIMove`'s catch block. -/
inductive GameStatus where
  | idle
  | playing
  | whiteWins
  | blackWins
  | draw
  | aiError
deriving DecidableEq

/-- `LLMConfig` (types.ts); the sampling temperature is never read by any
modelled operation and is omitted (it is floating point). -/
structure LLMConfig where
  providerId : String
  modelId : String
  customModelSlug : Option String := none
  apiKey : String
  maxRetries : Nat

structure PlayerConfig where
  type : PlayerType
  llmConfig : LLMConfig

structure MoveRecord where
  san : String
  uci : String
  fen : String
  color : PlayerColor
  moveNumber : Nat
deriving DecidableEq

inductive DebugType where
  | prompt
  | response
  | error
  | move
deriving DecidableEq

/-- `DebugEntry` (types.ts); `timestamp` is the `Date` value, opaque. -/
structure DebugEntry where
  timestamp : Nat
  type : DebugType
  player : PlayerColor
  content : String
  raw : Option String := none
deriving DecidableEq

/-- `{ isGameOver, status, winner? }` returned by
`chessEngine.getGameStatus`. -/
structure GameOverInfo where
  isGameOver : Bool
  status : String
  winner : Option PlayerColor := none

/-- The rules-engine operations the store consumes, as an abstract
oracle over opaque position handles (`chessEngine.ts` wraps `chess.js`,
which is out of scope).  `makeMove` returns the mutated object's new
position together with the `MoveRecord` (whose `fen` field is
`game.fen()` after the move), or `none` for a rejected move. -/
structure ChessOracle where
  initialPos : Nat
  initialFen : String
  isLegalMove : Nat → String → Bool
  makeMove : Nat → String → Option (Nat × MoveRecord)
  getGameStatus : Nat → GameOverInfo
  getCurrentTurn : Nat → PlayerColor

structure GameStore where
  gameId : Nat
  pos : Nat
  fen : String
  moveHistory : List MoveRecord
  currentTurn : PlayerColor
  status : GameStatus
  statusMessage : String
  whitePlayer : PlayerConfig
  blackPlayer : PlayerConfig
  isThinking : Bool
  thinkingPlayer : Option PlayerColor
  autoPlay : Bool
  debugMode : Bool
  debugLogs : List DebugEntry
  nextGameId : Nat

/-- `Array.prototype.slice(start)` for a single (possibly negative)
start argument. -/
def jsSlice {α : Type} (start : Int) (l : List α) : List α :=
  let len : Int := l.length
  let b : Int := if start < 0 then max (len + start) 0 else min start len
  l.drop b.toNat

/-- `addDebugLog`:
`debugLogs: [...state.debugLogs, entry].slice(-100)`. -/
def addDebugLog (s : GameStore) (entry : DebugEntry) : GameStore :=
  { s with debugLogs := jsSlice (-100) (s.debugLogs ++ [entry]) }

/-- `clearDebugLogs`. -/
def clearDebugLogs (s : GameStore) : GameStore :=
  { s with debugLogs := [] }

/-- The `newStatus` computation shared by `makeHumanMove` and
`requestAIMove`. -/
def computeStatus (info : GameOverInfo) : GameStatus :=
  if info.isGameOver then
    match info.winner with
    | some .white => .whiteWins
    | some .black => .blackWins
    | none => .draw
  else .playing

def colorName : PlayerColor → String
  | .white => "White"
  | .black => "Black"

/-- `startNewGame`. -/
def startNewGame (oracle : ChessOracle) (s : GameStore) : GameStore :=
  { s with
    gameId := s.nextGameId, nextGameId := s.nextGameId + 1,
    pos := oracle.initialPos, fen := oracle.initialFen,
    moveHistory := [], currentTurn := .white,
    status := .playing, statusMessage := "White to move",
    isThinking := false, thinkingPlayer := none, autoPlay := false }

/-- `resetGame`. -/
def resetGame (oracle : ChessOracle) (s : GameStore) : GameStore :=
  { s with
    gameId := s.nextGameId, nextGameId := s.nextGameId + 1,
    pos := oracle.initialPos, fen := oracle.initialFen,
    moveHistory := [], currentTurn := .white,
    status := .idle, statusMessage := "Ready to play",
    isThinking := false, thinkingPlayer := none, autoPlay := false }

/-- `makeHumanMove` — returns the boolean result together with the store
afterwards.  `now` stands for `new Date()` at the debug-log site. -/
def makeHumanMove (oracle : ChessOracle) (now : Nat) (s : GameStore) (uci : String) :
    Bool × GameStore :=
  if s.status ≠ .playing then (false, s)
  else
    let playerConfig := if s.currentTurn = .white then s.whitePlayer else s.blackPlayer
    if playerConfig.type ≠ .human then (false, s)
    else if ¬ oracle.isLegalMove s.pos uci then (false, s)
    else
      match oracle.makeMove s.pos uci with
      | none => (false, s)
      | some (newPos, rec) =>
        let info := oracle.getGameStatus newPos
        let s1 := { s with
          pos := newPos, fen := rec.fen,
          moveHistory := s.moveHistory ++ [rec],
          currentTurn := oracle.getCurrentTurn newPos,
          status := computeStatus info, statusMessage := info.status }
        let s2 := if s1.debugMode then
            addDebugLog s1 ⟨now, .move, s.currentTurn,
              "Human played: " ++ rec.san ++ " (" ++ uci ++ ")", none⟩
          else s1
        (true, s2)

/-- `toggleAutoPlay` — returns the store and whether an immediate
`requestAIMove()` call was issued. -/
def toggleAutoPlay (s : GameStore) : GameStore × Bool :=
  if s.autoPlay then ({ s with autoPlay := false }, false)
  else ({ s with autoPlay := true }, s.status = .playing)

/-- `stopAutoPlay`. -/
def stopAutoPlay (s : GameStore) : GameStore :=
  { s with autoPlay := false }

/-! ### `requestAIMove`

`requestAIMove` is an `async` function with a single suspension point —
the `await requestLLMMove(...)` call.  JavaScript's run-to-completion
scheduling makes the part before the `await` and the continuation after
it atomic; other store operations interleave only at the `await`.  The
model therefore splits it into `requestAIMovePhase1` (the synchronous
prefix: guards, captures, setting the thinking flag) and two resume
continuations, `resumeAIMoveSuccess` / `resumeAIMoveFailure`, which take
the store state *at resume time* and the values the closure captured. -/

/-- The values `requestAIMove`'s closure captures by value before the
`await`: the `game` reference (`gameRef`), the seat's turn colour, and
the destructured `debugMode` and `autoPlay` flags. -/
structure AICaptured where
  gameRef : Nat
  turn : PlayerColor
  debugMode : Bool
  autoPlay : Bool
  config : LLMConfig

inductive AIPhase1 where
  | noOp (s : GameStore)
  | proceed (s : GameStore) (cap : AICaptured)

/-- The synchronous prefix of `requestAIMove` (gameStore.ts lines
187–236): the playing/thinking guard, the AI-seat guard, the missing
API-key guard (which only sets a status message), and the transition to
the thinking state. -/
def requestAIMovePhase1 (s : GameStore) : AIPhase1 :=
  if s.status ≠ .playing ∨ s.isThinking then .noOp s
  else
    let playerConfig := if s.currentTurn = .white then s.whitePlayer else s.blackPlayer
    if playerConfig.type ≠ .ai then .noOp s
    else if playerConfig.llmConfig.apiKey = "" then
      .noOp { s with statusMessage := colorName s.currentTurn ++ " AI needs an API key" }
    else
      .proceed
        { s with
          isThinking := true, thinkingPlayer := some s.currentTurn,
          statusMessage := colorName s.currentTurn ++ " AI is thinking..." }
        ⟨s.gameId, s.currentTurn, s.debugMode, s.autoPlay, playerConfig.llmConfig⟩

/-- The catch block of `requestAIMove` (lines 301–324): behind the
identity guard it surfaces the error as `status: 'ai_error'` plus a
status message, clears the thinking flag and disables auto-play; the
debug entry is guarded by the captured `debugMode` *and* the live
identity check.  Returns the store and whether a follow-up timer was
scheduled (never, on this path). -/
def resumeAIMoveFailure (now : Nat) (s : GameStore) (cap : AICaptured) (errMsg : String) :
    GameStore × Bool :=
  let s2 := if s.gameId = cap.gameRef then
      { s with
        isThinking := false, thinkingPlayer := none, status := .aiError,
        statusMessage := "AI Error: " ++ errMsg, autoPlay := false }
    else s
  let s3 := if cap.debugMode ∧ s.gameId = cap.gameRef then
      addDebugLog s2 ⟨now, .error, cap.turn, "AI failed: " ++ errMsg, none⟩
    else s2
  (s3, false)

/-- The continuation of `requestAIMove` after a successful pipeline
result (lines 238–300).  `s` is the live store at resume time.  The
stale-result check (`get().game !== gameRef`) returns before anything
else; then the captured `game` object — which, identity having matched,
*is* the live object, hence `s.pos` — validates and applies the move;
a validation failure `throw`s into the catch block.  Returns the store
and whether the auto-play follow-up `setTimeout` was scheduled. -/
def resumeAIMoveSuccess (oracle : ChessOracle) (now : Nat) (s : GameStore)
    (cap : AICaptured) (resp : LLMResponse) : GameStore × Bool :=
  if s.gameId ≠ cap.gameRef then (s, false)
  else if ¬ oracle.isLegalMove s.pos resp.move then
    resumeAIMoveFailure now s cap ("Illegal move from AI: " ++ resp.move)
  else
    match oracle.makeMove s.pos resp.move with
    | none => resumeAIMoveFailure now s cap ("Failed to make move: " ++ resp.move)
    | some (newPos, rec) =>
      let info := oracle.getGameStatus newPos
      let newStatus := computeStatus info
      let s2 := { s with
        pos := newPos, fen := rec.fen,
        moveHistory := s.moveHistory ++ [rec],
        currentTurn := oracle.getCurrentTurn newPos,
        status := newStatus, statusMessage := info.status,
        isThinking := false, thinkingPlayer := none }
      let s3 := if cap.debugMode then
          addDebugLog s2 ⟨now, .move, cap.turn,
            "AI played: " ++ rec.san ++ " (" ++ resp.move ++ ")" ++
              (match resp.thoughts with
               | some t => if t.isEmpty then "" else "\nReason: " ++ t
               | none => ""), none⟩
        else s2
      (s3, cap.autoPlay && newStatus = .playing)

/-- The body of the auto-play follow-up `setTimeout` (lines 295–299): it
re-reads the *live* store (`get().autoPlay && get().status === 'playing'`)
when the 500 ms delay elapses and only then issues `requestAIMove()`. -/
def autoPlayTimerFires (s : GameStore) : Bool :=
  s.autoPlay && s.status = .playing

/-- A whole `requestAIMove` call in which no other store operation
interleaves during the `await`: phase 1, the retry loop, then the
matching resume continuation.  Records how often the provider was
dispatched. -/
structure AIMoveOutcome where
  store : GameStore
  providerCalls : Nat
  timerScheduled : Bool

def runRequestAIMove (oracle : ChessOracle) (now : Nat) (s : GameStore)
    (dispatch : Nat → Except String LLMResponse) : AIMoveOutcome :=
  match requestAIMovePhase1 s with
  | .noOp s1 => ⟨s1, 0, false⟩
  | .proceed s1 cap =>
    let run := requestLLMMoveRun dispatch cap.config.maxRetries
    match run.result with
    | .ok resp =>
      let (s2, t) := resumeAIMoveSuccess oracle now s1 cap resp
      ⟨s2, run.calls, t⟩
    | .error e =>
      let (s2, t) := resumeAIMoveFailure now s1 cap e
      ⟨s2, run.calls, t⟩

/-! ## Concrete fixtures used by witnesses

A tiny concrete rules oracle: in position `0` exactly the move `"e2e4"`
is legal and leads to position `1`; no position is game-over. -/

def demoRecord : MoveRecord :=
  ⟨"e4", "e2e4", "rnbqkbnr/pppppppp/8/8/4P3/8/PPPP1PPP/RNBQKBNR b KQkq e3 0 1", .white, 1⟩

def demoOracle : ChessOracle where
  initialPos := 0
  initialFen := "rnbqkbnr/pppppppp/8/8/8/8/PPPPPPPP/RNBQKBNR w KQkq - 0 1"
  isLegalMove := fun p m => p = 0 && m = "e2e4"
  makeMove := fun p m => if p = 0 && m = "e2e4" then some (1, demoRecord) else none
  getGameStatus := fun p =>
    if p = 1 then ⟨false, "Black to move", none⟩ else ⟨false, "White to move", none⟩
  getCurrentTurn := fun p => if p = 1 then .black else .white

def demoAiConfig : LLMConfig :=
  { providerId := "openrouter", modelId := "openai/gpt-4o", apiKey := "sk-demo", maxRetries := 3 }

def demoHumanConfig : LLMConfig :=
  { providerId := "openrouter", modelId := "openai/gpt-4o", apiKey := "", maxRetries := 3 }

/-- An active game: white is an AI seat with a key, black a human seat. -/
def demoStore : GameStore where
  gameId := 10
  pos := 0
  fen := demoOracle.initialFen
  moveHistory := []
  currentTurn := .white
  status := .playing
  statusMessage := "White to move"
  whitePlayer := ⟨.ai, demoAiConfig⟩
  blackPlayer := ⟨.human, demoHumanConfig⟩
  isThinking := false
  thinkingPlayer := none
  autoPlay := false
  debugMode := false
  debugLogs := []
  nextGameId := 11

/-! ## Claim theorems -/

/--
**C5.**  For every response text on which the fenced-JSON-block strategy
(strategy 1, `prompt.ts` lines 61–78) produces a result — i.e. the text
contains a fenced JSON code block whose `move` field is a grammar-valid
token — `extractMoveFromResponse` returns exactly that result, thoughts
included, regardless of what the lower-priority strategies (in particular
the last-mention fallback of lines 121–127) would find later in the text:
the fenced-block strategy strictly outranks them.
-/
theorem fencedBlock_outranks_lastMention (text : List Char) (r : ExtractedMove)
    (h : jsonBlockStrategy text = some r) :
    extractMoveFromResponse text = some r := by
  simp [extractMoveFromResponse, h]

/-- The spec's own example, concretely: a text whose fenced block carries
`move: "e2e4"` and which mentions `g1f3` afterwards extracts `e2e4` with
its explanation, although the last-mention fallback alone would have
produced `g1f3`. -/
theorem fencedBlock_outranks_lastMention_witness :
    jsonBlockStrategy
        ("```json\n\x7b\"move\": \"e2e4\", \"explanation\": \"control the center\"\x7d\n```\nAlternatively g1f3 was considered.".data) =
      some ⟨"e2e4".data, some (.str "control the center".data)⟩ ∧
    extractMoveFromResponse
        ("```json\n\x7b\"move\": \"e2e4\", \"explanation\": \"control the center\"\x7d\n```\nAlternatively g1f3 was considered.".data) =
      some ⟨"e2e4".data, some (.str "control the center".data)⟩ ∧
    lastUciStrategy
        ("```json\n\x7b\"move\": \"e2e4\", \"explanation\": \"control the center\"\x7d\n```\nAlternatively g1f3 was considered.".data) =
      some ⟨"g1f3".data, none⟩ :=
  ⟨by rfl, fencedBlock_outranks_lastMention _ _ (by rfl), by rfl⟩

/--
**C6.**  For every response text rejected by strategies 1–4 (no JSON-style
`move` field, no explicit lead-in phrase), `extractMoveFromResponse`
returns the *last* token of the move-token grammar found by the global
scan, normalized to lowercase and with no thoughts — and `none` when the
text contains no such token at all (`prompt.ts` lines 121–129).
-/
theorem bare_token_fallback_last_mention (text : List Char)
    (h1 : jsonBlockStrategy text = none) (h2 : jsonObjectStrategy text = none)
    (h3 : movePropertyStrategy text = none) (h4 : explicitPhraseStrategy text = none) :
    extractMoveFromResponse text =
      (uciScan text).getLast?.map (fun tok => ⟨toLowerList tok, none⟩) := by
  simp [extractMoveFromResponse, h1, h2, h3, h4, lastUciStrategy]

/-- The spec's fallback example, concretely: with no JSON and no lead-in
phrase, `e2e4 … d7d5` extracts `d7d5` (the last mention, lower-cased from
`D7D5`); a token-free text extracts nothing. -/
theorem bare_token_fallback_last_mention_witness :
    extractMoveFromResponse ("Lines after e2e4 look drawish; prefer D7D5 here".data) =
      some ⟨"d7d5".data, none⟩ ∧
    extractMoveFromResponse ("Nothing to suggest.".data) = none :=
  ⟨(bare_token_fallback_last_mention
      ("Lines after e2e4 look drawish; prefer D7D5 here".data)
      (by rfl) (by rfl) (by rfl) (by rfl)).trans (by rfl),
   (bare_token_fallback_last_mention ("Nothing to suggest.".data)
      (by rfl) (by rfl) (by rfl) (by rfl)).trans (by rfl)⟩

/-- Backoff schedule arithmetic: peeling the first of `r + 1` waits. -/
theorem range_pow_shift (a r : Nat) :
    (List.range (r + 1)).map (fun i => 2 ^ (a + i) * 500) =
      (2 ^ a * 500) :: (List.range r).map (fun i => 2 ^ (a + 1 + i) * 500) := by
  rw [List.range_succ_eq_map]
  simp only [List.map_cons, List.map_map]
  refine List.cons_eq_cons.mpr ⟨by simp, ?_⟩
  apply List.map_congr_left
  intro i _
  have h : a + (i + 1) = a + 1 + i := by omega
  simp [Function.comp, h]

/-- Closed form of the retry loop when every dispatch fails:
`remaining ≥ 1` iterations starting at `attempt = maxRetries - remaining + 1`
perform exactly `remaining` dispatches, wait `2^a * 500` ms after every
failed attempt `a` except the last, and end with the last attempt's
error. -/
theorem requestLLMMoveGo_all_fail (errs : Nat → String) (maxRetries : Nat) :
    ∀ remaining attempt lastError, 1 ≤ remaining → attempt + remaining = maxRetries + 1 →
      requestLLMMoveGo (fun a => .error (errs a)) maxRetries attempt remaining lastError =
        ⟨remaining, (List.range (remaining - 1)).map (fun i => 2 ^ (attempt + i) * 500),
          .error (errs maxRetries)⟩ := by
  intro remaining
  induction remaining with
  | zero => intro attempt lastError h1 _; omega
  | succ r ih =>
    intro attempt lastError _ h2
    by_cases hlast : attempt = maxRetries
    · have hr : r = 0 := by omega
      subst hr hlast
      simp [requestLLMMoveGo]
    · have hr : 1 ≤ r := by omega
      have grow := ih (attempt + 1) (some (errs attempt)) hr (by omega)
      simp only [requestLLMMoveGo, grow, hlast, if_false, LLMRunResult.mk.injEq]
      obtain ⟨k, hk⟩ : ∃ k, r = k + 1 := ⟨r - 1, by omega⟩
      subst hk
      simp [range_pow_shift]

/--
**C2.**  With `maxRetryAttempts = n ≥ 1` and a provider whose dispatch
throws a (transport) error on every attempt, `requestLLMMove`'s loop
(`llm/index.ts` lines 61–123) invokes the provider exactly `n` times,
waits `500 * 2^attempt` ms after each failed attempt except the last
(attempts are 1-based), and produces the single final outcome
`.error (errs n)` — the error recorded on the last attempt.  No error
escapes from attempts `1 … n-1`: the run's one result is the final throw.
-/
theorem retry_loop_exhausts_attempts (errs : Nat → String) (n : Nat) (h : 1 ≤ n) :
    requestLLMMoveRun (fun a => .error (errs a)) n =
      ⟨n, (List.range (n - 1)).map (fun i => 2 ^ (1 + i) * 500), .error (errs n)⟩ := by
  have := requestLLMMoveGo_all_fail errs n n 1 none h (by omega)
  simpa [requestLLMMoveRun] using this

/-- The spec's instance `maxRetryAttempts = 3`: exactly 3 dispatches,
backoffs of 1000 ms and 2000 ms after attempts 1 and 2, and the final
outcome is attempt 3's error. -/
theorem retry_loop_exhausts_attempts_witness :
    requestLLMMoveRun (fun a => .error ("attempt " ++ toString a ++ " failed")) 3 =
      ⟨3, [1000, 2000], .error "attempt 3 failed"⟩ :=
  (retry_loop_exhausts_attempts (fun a => "attempt " ++ toString a ++ " failed") 3
      (by decide)).trans (by rfl)

/-! ### Stale-result discard (C1) -/

/--
**C1.**  When a `requestAiMove` pipeline result — success or failure —
arrives after the session identity has been replaced (`resetGame` /
`startNewGame` allocate a fresh `game` object, so the live `gameId`
differs from the captured `gameRef`), the resume continuations leave the
live store completely unchanged: position, history, turn, status, status
message and debug log are untouched, no error status is surfaced, and no
follow-up timer is scheduled (gameStore.ts lines 238–241, 265–267,
280, 304–306, 316).
-/
theorem stale_result_discarded (oracle : ChessOracle) (now : Nat) (s : GameStore)
    (cap : AICaptured) (resp : LLMResponse) (errMsg : String)
    (h : s.gameId ≠ cap.gameRef) :
    resumeAIMoveSuccess oracle now s cap resp = (s, false) ∧
    resumeAIMoveFailure now s cap errMsg = (s, false) := by
  constructor
  · simp [resumeAIMoveSuccess, h]
  · simp [resumeAIMoveFailure, h]

/-- The captured identity of a request started against `demoStore`
(with `debugMode` and `autoPlay` captured as set, to show the discard is
unconditional). -/
def demoCap : AICaptured := ⟨10, .white, true, true, demoAiConfig⟩

/-- The live store after the user reset the game while the request was
in flight: a fresh identity (11) was allocated. -/
def demoResetStore : GameStore :=
  resetGame demoOracle { demoStore with isThinking := true, thinkingPlayer := some .white }

theorem stale_result_discarded_witness :
    demoResetStore.gameId ≠ demoCap.gameRef ∧
    resumeAIMoveSuccess demoOracle 0 demoResetStore demoCap ⟨"e2e4", none, none⟩ =
      (demoResetStore, false) ∧
    resumeAIMoveFailure 0 demoResetStore demoCap "network down" = (demoResetStore, false) :=
  ⟨by decide,
   (stale_result_discarded demoOracle 0 demoResetStore demoCap ⟨"e2e4", none, none⟩
      "network down" (by decide)).1,
   (stale_result_discarded demoOracle 0 demoResetStore demoCap ⟨"e2e4", none, none⟩
      "network down" (by decide)).2⟩

/-! ### Illegal AI move handling (C3) -/

/-- Inverting phase 1: a `proceed` result carries the capture of the
entry store's identity, which the phase-1 state keeps. -/
theorem requestAIMovePhase1_proceed_gameRef {s s1 : GameStore} {cap : AICaptured}
    (h : requestAIMovePhase1 s = .proceed s1 cap) : s1.gameId = cap.gameRef := by
  by_cases h1 : s.status ≠ .playing ∨ s.isThinking
  · simp [requestAIMovePhase1, h1] at h
  · by_cases h2 : (if s.currentTurn = .white then s.whitePlayer else s.blackPlayer).type ≠ .ai
    · simp [requestAIMovePhase1, h1, h2] at h
    · by_cases h3 :
        (if s.currentTurn = .white then s.whitePlayer else s.blackPlayer).llmConfig.apiKey = ""
      · simp [requestAIMovePhase1, h1, h2, h3] at h
      · simp [requestAIMovePhase1, h1, h2, h3] at h
        obtain ⟨hs, hcap⟩ := h
        subst hs
        subst hcap
        rfl

/-- A dispatch that succeeds on the first attempt ends the retry loop
immediately: one provider call, no backoff. -/
theorem requestLLMMoveRun_first_ok (dispatch : Nat → Except String LLMResponse)
    (n : Nat) (resp : LLMResponse) (h1 : 1 ≤ n) (h2 : dispatch 1 = .ok resp) :
    requestLLMMoveRun dispatch n = ⟨1, [], .ok resp⟩ := by
  obtain ⟨k, rfl⟩ : ∃ k, n = k + 1 := ⟨n - 1, by omega⟩
  simp [requestLLMMoveRun, requestLLMMoveGo, h2]

/--
**C3 (amended).**  A parseable token that is illegal in the captured
position is *not* retried: `requestLLMMove`'s loop returns it as a
success after a single dispatch (the pipeline performs no legality
check), and `requestAIMove` rejects it outside the loop — the
`isLegalMove` guard at gameStore.ts lines 245–247 `throw`s into the same
catch block that handles exhausted retries, with the provider invoked
exactly once and no timer scheduled.
-/
theorem illegal_token_fails_without_retry (oracle : ChessOracle) (now : Nat)
    (s s1 : GameStore) (cap : AICaptured) (dispatch : Nat → Except String LLMResponse)
    (resp : LLMResponse)
    (h1 : requestAIMovePhase1 s = .proceed s1 cap)
    (h2 : dispatch 1 = .ok resp)
    (h3 : 1 ≤ cap.config.maxRetries)
    (h4 : oracle.isLegalMove s1.pos resp.move = false) :
    runRequestAIMove oracle now s dispatch =
      ⟨(resumeAIMoveFailure now s1 cap ("Illegal move from AI: " ++ resp.move)).1,
        1, false⟩ := by
  have hid : s1.gameId = cap.gameRef := requestAIMovePhase1_proceed_gameRef h1
  have hrun := requestLLMMoveRun_first_ok dispatch cap.config.maxRetries resp h3 h2
  simp [runRequestAIMove, h1, hrun, resumeAIMoveSuccess, hid, h4, resumeAIMoveFailure]

/--
**C3 (counterexample to the claim as stated).**  Against `demoStore`
(white AI seat, `maxRetries = 3`) and a provider that always returns the
parseable but illegal token `a1a1`, the provider is invoked exactly once
— not three times, as retrying the illegal token inside the attempt loop
would require — and the session lands in the `ai_error` state via the
non-retrying path.
-/
theorem illegal_token_fails_without_retry_counterexample :
    demoStore.whitePlayer.llmConfig.maxRetries = 3 ∧
    (runRequestAIMove demoOracle 0 demoStore
        (fun _ => .ok ⟨"a1a1", none, none⟩)).providerCalls = 1 ∧
    ¬ (runRequestAIMove demoOracle 0 demoStore
        (fun _ => .ok ⟨"a1a1", none, none⟩)).providerCalls = 3 ∧
    (runRequestAIMove demoOracle 0 demoStore
        (fun _ => .ok ⟨"a1a1", none, none⟩)).store.status = .aiError := by
  decide

theorem illegal_token_fails_without_retry_witness :
    runRequestAIMove demoOracle 0 demoStore (fun _ => .ok ⟨"a1a1", none, none⟩) =
      ⟨(resumeAIMoveFailure 0
          { demoStore with
            isThinking := true, thinkingPlayer := some .white,
            statusMessage := "White AI is thinking..." }
          ⟨10, .white, false, false, demoAiConfig⟩ "Illegal move from AI: a1a1").1,
        1, false⟩ :=
  illegal_token_fails_without_retry demoOracle 0 demoStore
    { demoStore with
      isThinking := true, thinkingPlayer := some .white,
      statusMessage := "White AI is thinking..." }
    ⟨10, .white, false, false, demoAiConfig⟩
    (fun _ => .ok ⟨"a1a1", none, none⟩) ⟨"a1a1", none, none⟩
    rfl rfl (by decide) (by decide)

/-! ### Failure surfacing (C4) -/

/--
**C4 (amended).**  When the pipeline fails and the session identity is
unchanged, `requestAIMove`'s catch block surfaces the failure as the
status message `AI Error: …` *and* transitions `status` to the distinct
`ai_error` state (gameStore.ts line 310 — the code implements the
status-transition variant, not the message-only variant the claim
adopts), disables auto-play and clears the awaiting-AI flag; the turn,
position, fen and move history remain unchanged, and no timer is
scheduled.
-/
theorem ai_failure_status_policy (now : Nat) (s : GameStore) (cap : AICaptured)
    (errMsg : String) (h : s.gameId = cap.gameRef) :
    ((resumeAIMoveFailure now s cap errMsg).1.status = .aiError ∧
     (resumeAIMoveFailure now s cap errMsg).1.statusMessage = "AI Error: " ++ errMsg ∧
     (resumeAIMoveFailure now s cap errMsg).1.autoPlay = false ∧
     (resumeAIMoveFailure now s cap errMsg).1.isThinking = false ∧
     (resumeAIMoveFailure now s cap errMsg).1.thinkingPlayer = none) ∧
    ((resumeAIMoveFailure now s cap errMsg).1.currentTurn = s.currentTurn ∧
     (resumeAIMoveFailure now s cap errMsg).1.pos = s.pos ∧
     (resumeAIMoveFailure now s cap errMsg).1.fen = s.fen ∧
     (resumeAIMoveFailure now s cap errMsg).1.moveHistory = s.moveHistory) ∧
    (resumeAIMoveFailure now s cap errMsg).2 = false := by
  unfold resumeAIMoveFailure
  by_cases hd : cap.debugMode <;> simp [h, hd, addDebugLog]

/--
**C4 (counterexample to the claim as stated).**  Exhausting all three
retries against `demoStore` leaves the game status *changed*: it was
`playing` and becomes `ai_error`, contradicting "the game status …
remain[s] unchanged".
-/
theorem ai_failure_status_policy_counterexample :
    demoStore.status = .playing ∧
    (runRequestAIMove demoOracle 0 demoStore
        (fun _ => .error "network down")).providerCalls = 3 ∧
    (runRequestAIMove demoOracle 0 demoStore
        (fun _ => .error "network down")).store.status = .aiError ∧
    GameStatus.aiError ≠ GameStatus.playing := by
  decide

theorem ai_failure_status_policy_witness :
    ((resumeAIMoveFailure 0 demoStore demoCap "network down").1.status = .aiError ∧
     (resumeAIMoveFailure 0 demoStore demoCap "network down").1.statusMessage =
       "AI Error: network down" ∧
     (resumeAIMoveFailure 0 demoStore demoCap "network down").1.autoPlay = false ∧
     (resumeAIMoveFailure 0 demoStore demoCap "network down").1.isThinking = false ∧
     (resumeAIMoveFailure 0 demoStore demoCap "network down").1.thinkingPlayer = none) ∧
    ((resumeAIMoveFailure 0 demoStore demoCap "network down").1.currentTurn =
       demoStore.currentTurn ∧
     (resumeAIMoveFailure 0 demoStore demoCap "network down").1.pos = demoStore.pos ∧
     (resumeAIMoveFailure 0 demoStore demoCap "network down").1.fen = demoStore.fen ∧
     (resumeAIMoveFailure 0 demoStore demoCap "network down").1.moveHistory =
       demoStore.moveHistory) ∧
    (resumeAIMoveFailure 0 demoStore demoCap "network down").2 = false :=
  ai_failure_status_policy 0 demoStore demoCap "network down" (by decide)

/-! ### Human-move rejection is a pure no-op (C7) -/

/--
**C7.**  `makeHumanMove` returns `false` without mutating anything —
the returned store is the input store, so position, move history, turn,
status and logs are untouched — whenever the status is not `playing`,
the seat to move is not human-controlled, or the token is illegal in the
current position (gameStore.ts lines 130–147); the function is total, so
nothing is thrown.
-/
theorem makeHumanMove_rejection_no_mutation (oracle : ChessOracle) (now : Nat)
    (s : GameStore) (uci : String)
    (h : s.status ≠ .playing ∨
         (if s.currentTurn = .white then s.whitePlayer else s.blackPlayer).type ≠ .human ∨
         oracle.isLegalMove s.pos uci = false) :
    makeHumanMove oracle now s uci = (false, s) := by
  unfold makeHumanMove
  rcases h with h | h | h
  · simp [h]
  · by_cases hs : s.status = .playing
    · simp [hs, h]
    · simp [hs]
  · by_cases hs : s.status = .playing
    · by_cases ht :
        (if s.currentTurn = .white then s.whitePlayer else s.blackPlayer).type = .human
      · simp [hs, ht, h]
      · simp [hs, ht]
    · simp [hs]

/-- Black (a human seat, game active) attempts the illegal token
`a1a1`: rejected, store untouched. -/
theorem makeHumanMove_rejection_no_mutation_witness :
    makeHumanMove demoOracle 0 { demoStore with currentTurn := .black } "a1a1" =
      (false, { demoStore with currentTurn := .black }) :=
  makeHumanMove_rejection_no_mutation demoOracle 0
    { demoStore with currentTurn := .black } "a1a1" (.inr (.inr (by decide)))

/-! ### Auto-play toggle (C8) -/

/--
**C8 (amended).**  Switching auto-play on *always* sets the flag — also
while the status is not `playing` (gameStore.ts line 334 runs
unconditionally in the off-branch) — and issues the one immediate
`requestAIMove()` call exactly when the status is `playing`.
-/
theorem toggleAutoPlay_on_always_sets_flag (s : GameStore) (h : s.autoPlay = false) :
    (toggleAutoPlay s).1 = { s with autoPlay := true } ∧
    ((toggleAutoPlay s).2 = true ↔ s.status = .playing) := by
  simp [toggleAutoPlay, h]

/--
**C8 (counterexample to the claim as stated).**  Toggling auto-play on
while the session is `idle` is *not* a no-op: the flag becomes set
(though no `requestAIMove()` is issued).
-/
theorem toggleAutoPlay_on_always_sets_flag_counterexample :
    ({ demoStore with status := .idle } : GameStore).status ≠ .playing ∧
    ({ demoStore with status := .idle } : GameStore).autoPlay = false ∧
    (toggleAutoPlay { demoStore with status := .idle }).1.autoPlay = true ∧
    (toggleAutoPlay { demoStore with status := .idle }).2 = false := by
  decide

theorem toggleAutoPlay_on_always_sets_flag_witness :
    (toggleAutoPlay demoStore).1 = { demoStore with autoPlay := true } ∧
    (toggleAutoPlay demoStore).2 = true :=
  ⟨(toggleAutoPlay_on_always_sets_flag demoStore rfl).1,
   (toggleAutoPlay_on_always_sets_flag demoStore rfl).2.mpr rfl⟩

/-! ### Auto-play stop race (C9) -/

/--
**C9.**  The follow-up `setTimeout` body re-reads the *live* store
(`get().autoPlay && get().status === 'playing'`, gameStore.ts line 296):
whatever was captured when the timer was scheduled (the hypothesis shows
a real schedule after a completed AI move), if by the time the delay
elapses auto-play has been switched off or the status has left
`playing`, the callback issues no `requestAIMove`.
-/
theorem autoPlay_stop_during_delay_prevents_request (oracle : ChessOracle) (now : Nat)
    (s : GameStore) (cap : AICaptured) (resp : LLMResponse) (t : GameStore)
    (hsched : (resumeAIMoveSuccess oracle now s cap resp).2 = true)
    (hstop : t.autoPlay = false ∨ t.status ≠ .playing) :
    autoPlayTimerFires t = false := by
  rcases hstop with h | h <;> simp [autoPlayTimerFires, h]

/-- A completed AI move under auto-play schedules the follow-up; the
user's `stopAutoPlay` during the 500 ms delay then silences it. -/
theorem autoPlay_stop_during_delay_prevents_request_witness :
    (resumeAIMoveSuccess demoOracle 0 { demoStore with autoPlay := true }
        ⟨10, .white, false, true, demoAiConfig⟩ ⟨"e2e4", none, none⟩).2 = true ∧
    autoPlayTimerFires
      (stopAutoPlay (resumeAIMoveSuccess demoOracle 0 { demoStore with autoPlay := true }
        ⟨10, .white, false, true, demoAiConfig⟩ ⟨"e2e4", none, none⟩).1) = false :=
  ⟨by decide,
   autoPlay_stop_during_delay_prevents_request demoOracle 0
     { demoStore with autoPlay := true } ⟨10, .white, false, true, demoAiConfig⟩
     ⟨"e2e4", none, none⟩ _ (by decide) (.inl (by decide))⟩

/-! ### Debug log bound (C10) -/

/-- Specification-side description of "the `n` most recently added
entries in insertion order": the length-`n` suffix. -/
def lastEntries {α : Type} (n : Nat) (l : List α) : List α :=
  l.drop (l.length - n)

/-- `slice(-100)` keeps exactly the length-100 suffix. -/
theorem jsSlice_neg_hundred {α : Type} (l : List α) :
    jsSlice (-100) l = l.drop (l.length - 100) := by
  unfold jsSlice
  norm_num
  congr 1
  omega

/-- `addDebugLog` computes the 100-entry suffix of the appended log. -/
theorem addDebugLog_spec (s : GameStore) (e : DebugEntry) :
    (addDebugLog s e).debugLogs = lastEntries 100 (s.debugLogs ++ [e]) := by
  simp [addDebugLog, lastEntries, jsSlice_neg_hundred]

/-- `addDebugLog` leaves at most 100 entries — unconditionally, whatever
the log held before. -/
theorem addDebugLog_length_le (s : GameStore) (e : DebugEntry) :
    (addDebugLog s e).debugLogs.length ≤ 100 := by
  simp [addDebugLog_spec, lastEntries]
  omega

/-- The store a phase-1 result carries (either constructor). -/
def AIPhase1.outStore : AIPhase1 → GameStore
  | .noOp s1 => s1
  | .proceed s1 _ => s1

/-- Phase 1 of `requestAIMove` never touches the log. -/
theorem requestAIMovePhase1_preserves_logs (s : GameStore) :
    (requestAIMovePhase1 s).outStore.debugLogs = s.debugLogs := by
  by_cases h1 : s.status ≠ .playing ∨ s.isThinking
  · simp [requestAIMovePhase1, h1, AIPhase1.outStore]
  · by_cases h2 : (if s.currentTurn = .white then s.whitePlayer else s.blackPlayer).type ≠ .ai
    · simp [requestAIMovePhase1, h1, h2, AIPhase1.outStore]
    · by_cases h3 :
        (if s.currentTurn = .white then s.whitePlayer else s.blackPlayer).llmConfig.apiKey = ""
      · simp [requestAIMovePhase1, h1, h2, h3, AIPhase1.outStore]
      · simp [requestAIMovePhase1, h1, h2, h3, AIPhase1.outStore]

/-- The catch-block continuation keeps the log bounded. -/
theorem resumeAIMoveFailure_logs_le (now : Nat) (s : GameStore) (cap : AICaptured)
    (errMsg : String) (h : s.debugLogs.length ≤ 100) :
    (resumeAIMoveFailure now s cap errMsg).1.debugLogs.length ≤ 100 := by
  unfold resumeAIMoveFailure
  by_cases hg : cap.debugMode ∧ s.gameId = cap.gameRef
  · simp only [if_pos hg]
    exact addDebugLog_length_le _ _
  · simp only [if_neg hg]
    by_cases hid : s.gameId = cap.gameRef <;> simp [hid, h]

/-- The success continuation keeps the log bounded. -/
theorem resumeAIMoveSuccess_logs_le (oracle : ChessOracle) (now : Nat) (s : GameStore)
    (cap : AICaptured) (resp : LLMResponse) (h : s.debugLogs.length ≤ 100) :
    (resumeAIMoveSuccess oracle now s cap resp).1.debugLogs.length ≤ 100 := by
  unfold resumeAIMoveSuccess
  by_cases hid : s.gameId ≠ cap.gameRef
  · simp [hid, h]
  · rw [if_neg hid]
    by_cases hl : oracle.isLegalMove s.pos resp.move = true
    · rw [if_neg (not_not_intro hl)]
      cases hm : oracle.makeMove s.pos resp.move with
      | none =>
        simp only [hm]
        exact resumeAIMoveFailure_logs_le _ _ _ _ h
      | some pr =>
        obtain ⟨newPos, rec⟩ := pr
        simp only [hm]
        by_cases hd : cap.debugMode <;> simp [hd, h, addDebugLog_length_le]
    · rw [if_pos hl]
      exact resumeAIMoveFailure_logs_le _ _ _ _ h

/-- A whole `requestAIMove` run keeps the log bounded. -/
theorem runRequestAIMove_logs_le (oracle : ChessOracle) (now : Nat) (s : GameStore)
    (dispatch : Nat → Except String LLMResponse) (h : s.debugLogs.length ≤ 100) :
    (runRequestAIMove oracle now s dispatch).store.debugLogs.length ≤ 100 := by
  have hp := requestAIMovePhase1_preserves_logs s
  unfold runRequestAIMove
  cases hc : requestAIMovePhase1 s with
  | noOp s1 =>
    rw [hc] at hp
    simp only [AIPhase1.outStore] at hp
    simpa [hp] using h
  | proceed s1 cap =>
    rw [hc] at hp
    simp only [AIPhase1.outStore] at hp
    have h1 : s1.debugLogs.length ≤ 100 := by rw [hp]; exact h
    dsimp only
    cases hr : (requestLLMMoveRun dispatch cap.config.maxRetries).result with
    | ok resp =>
      simp only [hr]
      exact resumeAIMoveSuccess_logs_le oracle now s1 cap resp h1
    | error e =>
      simp only [hr]
      exact resumeAIMoveFailure_logs_le now s1 cap e h1

/-- `makeHumanMove` keeps the log bounded. -/
theorem makeHumanMove_logs_le (oracle : ChessOracle) (now : Nat) (s : GameStore)
    (uci : String) (h : s.debugLogs.length ≤ 100) :
    (makeHumanMove oracle now s uci).2.debugLogs.length ≤ 100 := by
  unfold makeHumanMove
  dsimp only
  by_cases h1 : s.status ≠ .playing
  · simp [h1, h]
  · rw [if_neg h1]
    by_cases h2 : (if s.currentTurn = .white then s.whitePlayer else s.blackPlayer).type ≠ .human
    · simp [h2, h]
    · rw [if_neg h2]
      by_cases h3 : oracle.isLegalMove s.pos uci = true
      · rw [if_neg (not_not_intro h3)]
        cases hm : oracle.makeMove s.pos uci with
        | none =>
          simp only [hm]
          simpa using h
        | some pr =>
          obtain ⟨newPos, rec⟩ := pr
          simp only [hm]
          by_cases hd : s.debugMode <;> simp [hd, h, addDebugLog_length_le]
      · rw [if_pos h3]
        simpa using h

/--
**C10.**  `addDebugLog` bounds the debug log at 100 entries: what it
stores is exactly the length-100 suffix — the 100 most recently added
entries, in insertion order, older ones dropped from the front — of the
previous log with the new entry appended (`slice(-100)`, gameStore.ts
line 417); so its result never exceeds 100 entries, and every other
modelled store operation (new/reset game, human move, auto-play toggles,
log clearing, both `requestAIMove` resume continuations and a whole
`requestAIMove` run) preserves the ≤ 100 bound.
-/
theorem debug_log_bounded_invariant :
    (∀ (s : GameStore) (e : DebugEntry),
      (addDebugLog s e).debugLogs = lastEntries 100 (s.debugLogs ++ [e]) ∧
      (addDebugLog s e).debugLogs.length ≤ 100) ∧
    (∀ s : GameStore, s.debugLogs.length ≤ 100 →
      ∀ (oracle : ChessOracle) (now : Nat) (uci : String)
        (cap : AICaptured) (errMsg : String) (resp : LLMResponse)
        (dispatch : Nat → Except String LLMResponse),
      (startNewGame oracle s).debugLogs.length ≤ 100 ∧
      (resetGame oracle s).debugLogs.length ≤ 100 ∧
      (makeHumanMove oracle now s uci).2.debugLogs.length ≤ 100 ∧
      (toggleAutoPlay s).1.debugLogs.length ≤ 100 ∧
      (stopAutoPlay s).debugLogs.length ≤ 100 ∧
      (clearDebugLogs s).debugLogs.length ≤ 100 ∧
      (resumeAIMoveFailure now s cap errMsg).1.debugLogs.length ≤ 100 ∧
      (resumeAIMoveSuccess oracle now s cap resp).1.debugLogs.length ≤ 100 ∧
      (runRequestAIMove oracle now s dispatch).store.debugLogs.length ≤ 100) := by
  refine ⟨fun s e => ⟨addDebugLog_spec s e, addDebugLog_length_le s e⟩, ?_⟩
  intro s h oracle now uci cap errMsg resp dispatch
  refine ⟨?_, ?_, makeHumanMove_logs_le oracle now s uci h, ?_, ?_, ?_,
    resumeAIMoveFailure_logs_le now s cap errMsg h,
    resumeAIMoveSuccess_logs_le oracle now s cap resp h,
    runRequestAIMove_logs_le oracle now s dispatch h⟩
  · simpa [startNewGame] using h
  · simpa [resetGame] using h
  · unfold toggleAutoPlay
    by_cases ha : s.autoPlay <;> simp [ha, h]
  · simpa [stopAutoPlay] using h
  · simp [clearDebugLogs]

/-- The bound concretely: appending a 101st entry to a full log keeps
entries 2…101, in order. -/
theorem debug_log_bounded_invariant_witness :
    (addDebugLog { demoStore with
        debugLogs := (List.range 100).map (fun i => ⟨i, .prompt, .white, "old", none⟩) }
      ⟨100, .move, .white, "new", none⟩).debugLogs =
      lastEntries 100
        (((List.range 100).map (fun i => (⟨i, .prompt, .white, "old", none⟩ : DebugEntry))) ++
          [⟨100, .move, .white, "new", none⟩]) ∧
    (addDebugLog { demoStore with
        debugLogs := (List.range 100).map (fun i => ⟨i, .prompt, .white, "old", none⟩) }
      ⟨100, .move, .white, "new", none⟩).debugLogs.length ≤ 100 ∧
    (stopAutoPlay demoStore).debugLogs.length ≤ 100 :=
  ⟨(debug_log_bounded_invariant.1 _ _).1,
   (debug_log_bounded_invariant.1 _ _).2,
   (debug_log_bounded_invariant.2 demoStore (by decide) demoOracle 0 "e2e4"
      demoCap "x" ⟨"e2e4", none, none⟩ (fun _ => .error "x")).2.2.2.2.1⟩

end NeuroChess
